import Mathlib

/-!
Verification development for the bitcoin-content-curator repository.

The pipeline orchestration (src/pipeline.py), the record store
(src/database.py), the scorer and generator parse boundaries
(src/scorer.py, src/generator.py) and the output log writer
(src/output.py) are shallowly embedded as executable Lean functions.
Python `str` is modelled by Lean `String` except in the output module,
where the splice logic needs character-level reasoning and `List Char`
is used. Python `float` scores are modelled by `ℚ` (only order
comparisons on scores occur in the code). External collaborators
(the sqlite URL hash, the Anthropic client, `json.loads`) are passed
in as function parameters, since their internals are not part of this
repository.
-/

namespace Curator

/-- An article produced by the feed source (fetcher.py, `Article`). -/
structure Article where
  url : String
  title : String
  summary : String
  source : String
  published_at : Option String
deriving DecidableEq, Repr

/-- Result of scoring an article (scorer.py, `ScoreResult`). Field types
follow the dataclass annotations. -/
structure ScoreResult where
  score : ℚ
  reason : String
  is_bitcoin_relevant : Bool
deriving DecidableEq, Repr

/-- Generated social media content (generator.py, `GeneratedContent`). -/
structure GeneratedContent where
  tweet : String
  thread : String
  linkedin : String
deriving DecidableEq, Repr

/-- A row of the `articles` table (database.py, `_init_tables`).
`score`, `score_reason` are NULL until `update_score` runs; `status`
defaults to `new`. -/
structure ArticleRow where
  id : Nat
  url_hash : String
  url : String
  title : String
  source : String
  published_at : Option String
  score : Option ℚ
  score_reason : Option String
  status : String
deriving DecidableEq, Repr

/-- A row of the `generated_content` table (database.py). -/
structure ContentRow where
  article_id : Nat
  content_type : String
  content : String
deriving DecidableEq, Repr

/-- The record store: the two tables plus the AUTOINCREMENT counter. -/
structure DB where
  articles : List ArticleRow
  contents : List ContentRow
  nextId : Nat
deriving DecidableEq, Repr

/-- A fresh database, as created by `get_connection` on a new path
(sqlite AUTOINCREMENT starts at 1). -/
def emptyDB : DB := ⟨[], [], 1⟩

/-- database.py `article_exists`: membership test on the URL hash.
The hash function (`url_hash`, a truncated SHA-256) is external
library code and is passed in as `h`. -/
def article_exists (h : String → String) (db : DB) (url : String) : Bool :=
  db.articles.any (fun r => r.url_hash == h url)

/-- database.py `insert_article`: append a row with `status='new'` and
no score, return the new row id (sqlite `lastrowid`). -/
def insert_article (h : String → String) (db : DB) (url title source : String)
    (published_at : Option String) : Nat × DB :=
  (db.nextId,
   { db with
       articles := db.articles ++
         [{ id := db.nextId, url_hash := h url, url := url, title := title,
            source := source, published_at := published_at,
            score := none, score_reason := none, status := "new" }],
       nextId := db.nextId + 1 })

/-- database.py `update_score`: set score, score_reason and status on
the row with the given id. -/
def update_score (db : DB) (article_id : Nat) (score : ℚ)
    (reason status : String) : DB :=
  { db with
      articles := db.articles.map (fun r =>
        if r.id = article_id then
          { r with score := some score, score_reason := some reason, status := status }
        else r) }

/-- database.py `insert_content`: append a generated-content row. -/
def insert_content (db : DB) (article_id : Nat) (content_type content : String) : DB :=
  { db with contents := db.contents ++ [⟨article_id, content_type, content⟩] }

/-- The `stats` dict of pipeline.py `run_pipeline`. -/
structure Stats where
  fetched : Nat
  new : Nat
  skipped_duplicate : Nat
  scored : Nat
  generated : Nat
  ready : Nat
  review : Nat
  archive : Nat
deriving DecidableEq, Repr

/-- All-zero stats, as initialised at the top of `run_pipeline`. -/
def initStats : Stats := ⟨0, 0, 0, 0, 0, 0, 0, 0⟩

/-- One call to output.py `write_to_silverbullet` made by the pipeline:
the arguments passed at pipeline.py line 142. -/
structure WriteEvent where
  category : String
  title : String
  url : String
  source : String
  score : ℚ
  score_reason : String
  tweet : Option String
  thread : Option String
  linkedin : Option String
deriving DecidableEq, Repr

/-- Run-scoped mutable state of `run_pipeline`: the store connection,
the stats dict, the writes performed so far, and the `processed`
counter. -/
structure RunState where
  db : DB
  stats : Stats
  writes : List WriteEvent
  processed : Nat
deriving DecidableEq, Repr

/-- Configuration arguments of `run_pipeline` that drive decisions. -/
structure Config where
  score_high : ℚ
  score_medium : ℚ
  max_articles : Int
  dry_run : Bool
deriving DecidableEq, Repr

/-- pipeline.py lines 96-107: the category/status cascade, together
with the per-category stats bump done in the same branch. Returns
(category, status, updated stats). -/
def assignCategory (score score_high score_medium : ℚ) (stats : Stats) :
    String × String × Stats :=
  if score ≥ score_high then
    ("ready", "ready", { stats with ready := stats.ready + 1 })
  else if score ≥ score_medium then
    ("review", "review", { stats with review := stats.review + 1 })
  else
    ("archive", "archived", { stats with archive := stats.archive + 1 })

/-- pipeline.py line 114: the generation gate
`score_result.score >= score_medium and score_result.is_bitcoin_relevant`. -/
def generationGate (sr : ScoreResult) (score_medium : ℚ) : Bool :=
  decide (sr.score ≥ score_medium) && sr.is_bitcoin_relevant

/-- pipeline.py lines 70-155: the body of the loop for one article
that passed the dedup check and the budget check. `scoreOf` and
`genOf` stand for the inference-provider calls `score_article` and
`generate_content`. -/
def processArticle (h : String → String) (scoreOf : Article → ScoreResult)
    (genOf : Article → GeneratedContent) (cfg : Config)
    (st : RunState) (a : Article) : RunState :=
  let ins := insert_article h st.db a.url a.title a.source a.published_at
  let article_id := ins.1
  let db1 := ins.2
  let sr := scoreOf a
  let stats1 := { st.stats with scored := st.stats.scored + 1 }
  let cs := assignCategory sr.score cfg.score_high cfg.score_medium stats1
  let category := cs.1
  let status := cs.2.1
  let stats2 := cs.2.2
  let db2 := update_score db1 article_id sr.score sr.reason status
  let r :=
    if generationGate sr cfg.score_medium then
      let c := genOf a
      let stats3 := { stats2 with generated := stats2.generated + 1 }
      let db3 := if c.tweet ≠ "" then insert_content db2 article_id "tweet" c.tweet else db2
      let db4 := if c.thread ≠ "" then insert_content db3 article_id "thread" c.thread else db3
      let db5 := if c.linkedin ≠ "" then insert_content db4 article_id "linkedin" c.linkedin else db4
      (db5, stats3, some c.tweet, some c.thread, some c.linkedin)
    else
      (db2, stats2, (none : Option String), (none : Option String), (none : Option String))
  let writes :=
    if cfg.dry_run then st.writes
    else st.writes ++
      [{ category := category, title := a.title, url := a.url, source := a.source,
         score := sr.score, score_reason := sr.reason,
         tweet := r.2.2.1, thread := r.2.2.2.1, linkedin := r.2.2.2.2 : WriteEvent }]
  { db := r.1, stats := r.2.1, writes := writes, processed := st.processed + 1 }

/-- pipeline.py lines 55-156: the `for article in fetch_all_feeds(...)`
loop. Dedup check first; then the `new` bump; then the budget check
(which `break`s, abandoning the rest of the list); then the per-article
processing. -/
def runLoop (h : String → String) (scoreOf : Article → ScoreResult)
    (genOf : Article → GeneratedContent) (cfg : Config) :
    List Article → RunState → RunState
  | [], st => st
  | a :: rest, st =>
    let st1 := { st with stats := { st.stats with fetched := st.stats.fetched + 1 } }
    if article_exists h st1.db a.url then
      runLoop h scoreOf genOf cfg rest
        { st1 with stats := { st1.stats with
            skipped_duplicate := st1.stats.skipped_duplicate + 1 } }
    else
      let st2 := { st1 with stats := { st1.stats with new := st1.stats.new + 1 } }
      if (st2.processed : Int) ≥ cfg.max_articles then st2
      else runLoop h scoreOf genOf cfg rest (processArticle h scoreOf genOf cfg st2 a)

/-- pipeline.py `run_pipeline`: run the loop from the initial state
over the articles yielded by the feed source. The store contents at
the start of the run are `db0`. -/
def runPipeline (h : String → String) (scoreOf : Article → ScoreResult)
    (genOf : Article → GeneratedContent) (cfg : Config) (db0 : DB)
    (articles : List Article) : RunState :=
  runLoop h scoreOf genOf cfg articles ⟨db0, initStats, [], 0⟩

/-! ## Scorer and generator parse boundaries (scorer.py, generator.py)

`json.loads` is Python stdlib, external to the repository; it is passed
in as a parameter `loads` returning `none` for a `JSONDecodeError`.
Exceptions that can escape the parse code are modelled with `Except`. -/

/-- A parsed JSON value as returned by `json.loads`. -/
inductive PyJson where
  | null : PyJson
  | bool (b : Bool) : PyJson
  | num (q : ℚ) : PyJson
  | str (s : String) : PyJson
  | arr (xs : List PyJson) : PyJson
  | dict (fields : List (String × PyJson)) : PyJson

/-- Python exceptions that the scorer/generator parse code can raise. -/
inductive PyErr where
  | typeError : PyErr
  | valueError : PyErr
  | attributeError : PyErr
deriving DecidableEq, Repr

/-- `dict.get(key, default)` on a parsed JSON object. -/
def fieldsGet (fields : List (String × PyJson)) (key : String)
    (dflt : PyJson) : PyJson :=
  match fields.find? (fun kv => kv.1 == key) with
  | some kv => kv.2
  | none => dflt

/-- Python `float(...)` applied to a JSON value. Numbers and booleans
convert; `None`, lists and dicts raise `TypeError` (which scorer.py
catches); non-numeric strings raise `ValueError` (which it does not).
`float` on a numeric string actually succeeds in Python; that success
case is irrelevant to every claim here and is folded into the
`ValueError` branch. -/
def pyFloat : PyJson → Except PyErr ℚ
  | .num q => .ok q
  | .bool b => .ok (if b then 1 else 0)
  | .str _ => .error .valueError
  | .null => .error .typeError
  | .arr _ => .error .typeError
  | .dict _ => .error .typeError

/-- Render a JSON value stored into a `str`-annotated dataclass field.
 Python stores the raw
value; only its string payload matters to any claim, so non-string
values are represented by an arbitrary fixed rendering. -/
def strValueOf : PyJson → String
  | .str s => s
  | _ => ""

/-- Python truthiness of a JSON value, as used when a non-boolean is
stored in a `bool`-annotated field. -/
def pyTruthy : PyJson → Bool
  | .null => false
  | .bool b => b
  | .num q => decide (q ≠ 0)
  | .str s => decide (s ≠ "")
  | .arr xs => !xs.isEmpty
  | .dict fs => !fs.isEmpty

/-- scorer.py / generator.py lines handling markdown code fences:
`lines = text.split("\n"); text = "\n".join(lines[1:-1])`. -/
def stripFence (text : String) : String :=
  let lines := text.splitOn "\n"
  String.intercalate "\n" (lines.drop 1).dropLast

/-- scorer.py lines 71-76 (and the identical generator.py lines 73-78):
`.strip()` the raw response text, then strip a markdown code fence.
Lean `String.trim` models Python `str.strip()`. -/
def preprocessResponse (raw : String) : String :=
  let text := raw.trim
  if text.startsWith "```" then stripFence text else text

/-- scorer.py lines 70-88: parse the provider response. `none` from
`loads` is a `JSONDecodeError`, caught by the `except` clause, giving
the sentinel result. On a parsed dict, `float(data.get("score", 1))`
may raise `TypeError` (caught, giving the sentinel) or `ValueError`
(not caught, propagating); `.get` on a parsed non-dict raises
`AttributeError` (not caught). -/
def score_article_result (loads : String → Option PyJson) (raw : String) :
    Except PyErr ScoreResult :=
  let text := preprocessResponse raw
  match loads text with
  | none => .ok { score := 1, reason := "Failed to parse", is_bitcoin_relevant := false }
  | some (.dict fields) =>
    match pyFloat (fieldsGet fields "score" (.num 1)) with
    | .ok q =>
        .ok { score := q,
              reason := strValueOf (fieldsGet fields "reason" (.str "No reason provided")),
              is_bitcoin_relevant := pyTruthy (fieldsGet fields "is_bitcoin_relevant" (.bool false)) }
    | .error .typeError =>
        .ok { score := 1, reason := "Failed to parse", is_bitcoin_relevant := false }
    | .error e => .error e
  | some _ => .error .attributeError

/-- generator.py lines 73-90: parse the generation response. `none`
from `loads` is a `JSONDecodeError`, caught, giving three empty
variants; `.get` on a parsed non-dict raises `AttributeError`. -/
def generate_content_result (loads : String → Option PyJson) (raw : String) :
    Except PyErr GeneratedContent :=
  let text := preprocessResponse raw
  match loads text with
  | none => .ok { tweet := "", thread := "", linkedin := "" }
  | some (.dict fields) =>
    .ok { tweet := strValueOf (fieldsGet fields "tweet" (.str "")),
          thread := strValueOf (fieldsGet fields "thread" (.str "")),
          linkedin := strValueOf (fieldsGet fields "linkedin" (.str "")) }
  | some _ => .error .attributeError

/-! ## Output log writer (output.py)

The file-splice logic of `SilverBulletOutput.append_content` needs
character-level reasoning, so here Python `str` is modelled as
`List Char` (`PyStr`), with Python's `split("\n")`, `"\n".join`,
`strip()` and `startswith` as executable functions on it. -/

abbrev PyStr := List Char

/-- Python `s.split("\n")`. -/
def splitNl : PyStr → List PyStr
  | [] => [[]]
  | c :: rest =>
    if c = '\n' then [] :: splitNl rest
    else (c :: (splitNl rest).headD []) :: (splitNl rest).tail

/-- Python `"\n".join(pieces)`. -/
def joinNl : List PyStr → PyStr
  | [] => []
  | [p] => p
  | p :: ps => p ++ '\n' :: joinNl ps

/-- Python `str.isspace` characters relevant to `strip()`. -/
def isPySpace (c : Char) : Bool :=
  c = ' ' || c = '\t' || c = '\n' || c = '\r' || c = '\x0b' || c = '\x0c'

/-- Python `s.strip()`. -/
def pyStrip (s : PyStr) : PyStr :=
  ((s.dropWhile isPySpace).reverse.dropWhile isPySpace).reverse

/-- Python `s.startswith(p)`. -/
def pyStartsWith : PyStr → PyStr → Bool
  | _, [] => true
  | [], _ :: _ => false
  | c :: s, p :: ps => c = p && pyStartsWith s ps

/-- output.py lines 96-99: scan for the first line at index `i > 0`
starting with `---`; `header_end` is that index plus one, or 0 if no
such line exists. -/
def findHeaderEndAux : List PyStr → Nat → Nat
  | [], _ => 0
  | l :: rest, i =>
    if pyStartsWith l ['-', '-', '-'] && !(i == 0) then i + 1
    else findHeaderEndAux rest (i + 1)

/-- `header_end` for a lines list, starting the scan at index 0. -/
def findHeaderEnd (lines : List PyStr) : Nat := findHeaderEndAux lines 0

/-- output.py `_get_header` titles dict: `titles.get(category, 'Content')`. -/
def categoryTitle (category : String) : String :=
  if category = "ready" then "Ready to Post"
  else if category = "review" then "Needs Review"
  else if category = "archive" then "Archive"
  else "Content"

/-- output.py lines 60-66: `filename_map.get(category, "Content/Other.md")`. -/
def filenameFor (category : String) : String :=
  if category = "ready" then "Content/ReadyToPost.md"
  else if category = "review" then "Content/NeedsReview.md"
  else if category = "archive" then "Content/Archive.md"
  else "Content/Other.md"

/-- output.py `_get_header`: the YAML front-matter header block,
terminated by a `---` delimiter line and a blank line. -/
def getHeader (category : String) : PyStr :=
  ("---\ntitle: " ++ categoryTitle category ++
   "\ntags: #content #bitcoin\n---\n\n").toList

/-- The header without its trailing blank lines: its four lines
(`---`, title, tags, terminating `---`) joined by newlines. -/
def headerMain (category : String) : PyStr :=
  ("---\ntitle: " ++ categoryTitle category ++
   "\ntags: #content #bitcoin\n---").toList

/-- Arguments of output.py `_format_entry`. The numeric score only
ever appears interpolated into the entry text, so its Python `float`
rendering is carried as the pre-rendered text `scoreText`. -/
structure EntryArgs where
  title : String
  url : String
  source : String
  scoreText : String
  score_reason : String
  timestamp : String
  tweet : Option String
  thread : Option String
  linkedin : Option String
deriving DecidableEq, Repr

/-- output.py `_format_entry` without its final `entry += "\n---\n"`:
heading, metadata line, link line, rationale line, and the up to three
content sections, each included only when truthy (non-`None`,
non-empty). -/
def entryBody (e : EntryArgs) : PyStr :=
  (("\n## " ++ e.title ++ "\n\n**Source:** " ++ e.source ++ " | **Score:** "
      ++ e.scoreText ++ "/10 | **Added:** " ++ e.timestamp
      ++ "\n**Link:** " ++ e.url ++ "\n**Why:** " ++ e.score_reason ++ "\n").toList)
  ++ (match e.tweet with
      | some t => if t ≠ "" then ("\n### Tweet\n```\n" ++ t ++ "\n```\n").toList else []
      | none => [])
  ++ (match e.thread with
      | some t => if t ≠ "" then ("\n### Thread\n```\n" ++ t ++ "\n```\n").toList else []
      | none => [])
  ++ (match e.linkedin with
      | some t => if t ≠ "" then ("\n### LinkedIn\n" ++ t ++ "\n").toList else []
      | none => [])

/-- output.py `_format_entry`: the entry body terminated by its own
horizontal-rule delimiter line. -/
def formatEntry (e : EntryArgs) : PyStr :=
  entryBody e ++ ("\n---\n").toList

/-- output.py lines 92-104: the prepend branch of `append_content` —
locate the header's terminating delimiter line and splice the entry
between header and prior body (then `strip()` and add a final newline,
line 108). -/
def spliceEntry (entry existing : PyStr) : PyStr :=
  let lines := splitNl existing
  let headerEnd := findHeaderEnd lines
  let headerPart := joinNl (lines.take headerEnd)
  let contentPart := joinNl (lines.drop headerEnd)
  pyStrip (headerPart ++ '\n' :: (entry ++ '\n' :: contentPart)) ++ ['\n']

/-- output.py `append_content` lines 69-108, as a pure transformation
of the target file's contents. `existing0` is what `_read_existing`
returns: the current file text, or `""` when the file does not exist. -/
def appendContentFile (category : String) (e : EntryArgs) (prepend : Bool)
    (existing0 : PyStr) : PyStr :=
  let entry := formatEntry e
  let existing := if existing0 = [] then getHeader category else existing0
  if prepend then spliceEntry entry existing
  else pyStrip (existing ++ '\n' :: entry) ++ ['\n']

/-! ### Lemmas about the character-list string operations -/

theorem splitNl_ne_nil (s : PyStr) : splitNl s ≠ [] := by
  cases s with
  | nil => simp [splitNl]
  | cons c rest =>
    simp only [splitNl]
    split <;> simp

theorem splitNl_append_nl (x y : PyStr) :
    splitNl (x ++ '\n' :: y) = splitNl x ++ splitNl y := by
  induction x with
  | nil => simp [splitNl]
  | cons c s ih =>
    by_cases hc : c = '\n'
    · subst hc
      simp [splitNl, ih]
    · rcases hs : splitNl s with _ | ⟨p, ps⟩
      · exact absurd hs (splitNl_ne_nil s)
      · simp [splitNl, hc, ih, hs]

theorem splitNl_no_nl (s : PyStr) (h : '\n' ∉ s) : splitNl s = [s] := by
  induction s with
  | nil => rfl
  | cons c rest ih =>
    have hc : c ≠ '\n' := fun hc => h (hc ▸ List.mem_cons_self c rest)
    have hrest : '\n' ∉ rest := fun hm => h (List.mem_cons_of_mem c hm)
    simp [splitNl, hc, ih hrest]

theorem joinNl_cons_cons (p q : PyStr) (ls : List PyStr) :
    joinNl (p :: q :: ls) = p ++ '\n' :: joinNl (q :: ls) := rfl

theorem joinNl_splitNl (s : PyStr) : joinNl (splitNl s) = s := by
  induction s with
  | nil => rfl
  | cons c rest ih =>
    by_cases hc : c = '\n'
    · subst hc
      rcases hs : splitNl rest with _ | ⟨p, ps⟩
      · exact absurd hs (splitNl_ne_nil rest)
      · rw [hs] at ih
        simp [splitNl, hs, joinNl_cons_cons, ih]
    · rcases hs : splitNl rest with _ | ⟨p, ps⟩
      · exact absurd hs (splitNl_ne_nil rest)
      · rw [hs] at ih
        cases ps with
        | nil => simp [splitNl, hc, hs, joinNl] at ih ⊢; simp [ih]
        | cons q qs =>
          simp [splitNl, hc, hs, joinNl_cons_cons] at ih ⊢
          simp [joinNl_cons_cons, ih]

theorem dropWhile_append_all (w r : PyStr) (hw : ∀ c ∈ w, isPySpace c = true) :
    (w ++ r).dropWhile isPySpace = r.dropWhile isPySpace := by
  induction w with
  | nil => rfl
  | cons c s ih =>
    have hc : isPySpace c = true := hw c (List.mem_cons_self c s)
    have hs : ∀ c ∈ s, isPySpace c = true := fun d hd => hw d (List.mem_cons_of_mem c hd)
    simp [List.dropWhile, hc, ih hs]

/-- Stripping a string made of a whitespace-free-at-both-ends core
followed by trailing whitespace returns the core. -/
theorem pyStrip_append_ws (x w : PyStr)
    (hx1 : x.dropWhile isPySpace = x)
    (hx2 : x.reverse.dropWhile isPySpace = x.reverse)
    (hw : ∀ c ∈ w, isPySpace c = true) :
    pyStrip (x ++ w) = x := by
  unfold pyStrip
  cases x with
  | nil =>
    have h0 : w.dropWhile isPySpace = [] := List.dropWhile_eq_nil_iff.mpr hw
    simp [h0]
  | cons c s =>
    have hc : ¬ isPySpace c = true := by
      have := List.dropWhile_eq_self_iff.mp hx1 (by simp)
      simpa using this
    have h1 : ((c :: s) ++ w).dropWhile isPySpace = (c :: s) ++ w := by
      rw [List.cons_append, List.dropWhile_cons, if_neg hc]
    rw [h1, List.reverse_append,
        dropWhile_append_all w.reverse (c :: s).reverse
          (fun d hd => hw d (List.mem_reverse.mp hd)),
        hx2, List.reverse_reverse]

/-! ### Shape of the header and of spliced files -/

theorem toList_append (a b : String) : (a ++ b).toList = a.toList ++ b.toList :=
  String.data_append a b

theorem categoryTitle_no_nl (c : String) : '\n' ∉ (categoryTitle c).toList := by
  unfold categoryTitle
  split_ifs <;> decide

theorem headerMain_shape (c : String) :
    headerMain c = "---".toList ++ '\n' ::
      (("title: ".toList ++ (categoryTitle c).toList) ++ '\n' ::
        ("tags: #content #bitcoin".toList ++ '\n' :: "---".toList)) := by
  unfold headerMain
  rw [toList_append, toList_append]
  rw [(by decide : ("---\ntitle: " : String).toList
        = "---".toList ++ '\n' :: "title: ".toList)]
  rw [(by decide : ("\ntags: #content #bitcoin\n---" : String).toList
        = '\n' :: ("tags: #content #bitcoin".toList ++ '\n' :: "---".toList))]
  simp [List.append_assoc]

theorem getHeader_eq (c : String) : getHeader c = headerMain c ++ ['\n', '\n'] := by
  unfold getHeader headerMain
  rw [toList_append, toList_append, toList_append, toList_append]
  rw [(by decide : ("\ntags: #content #bitcoin\n---\n\n" : String).toList
        = "\ntags: #content #bitcoin\n---".toList ++ ['\n', '\n'])]
  simp [List.append_assoc]

theorem splitNl_headerMain (c : String) :
    splitNl (headerMain c) =
      ["---".toList, "title: ".toList ++ (categoryTitle c).toList,
       "tags: #content #bitcoin".toList, "---".toList] := by
  have hB : '\n' ∉ ("title: ".toList ++ (categoryTitle c).toList) := by
    intro hm
    rcases List.mem_append.mp hm with hm | hm
    · revert hm; decide
    · exact categoryTitle_no_nl c hm
  rw [headerMain_shape, splitNl_append_nl, splitNl_append_nl, splitNl_append_nl]
  rw [splitNl_no_nl _ (by decide), splitNl_no_nl _ hB,
      splitNl_no_nl _ (by decide)]
  simp

theorem pyStartsWith_cons_ne (c p : Char) (s ps : PyStr) (h : c ≠ p) :
    pyStartsWith (c :: s) (p :: ps) = false := by
  simp [pyStartsWith, h]

theorem findHeaderEnd_header (c : String) (rest : List PyStr) :
    findHeaderEnd (splitNl (headerMain c) ++ rest) = 4 := by
  have h1 : pyStartsWith
      ('t' :: 'i' :: 't' :: 'l' :: 'e' :: ':' :: ' ' :: (categoryTitle c).data)
      ['-', '-', '-'] = false :=
    pyStartsWith_cons_ne _ _ _ _ (by decide)
  have h2 : pyStartsWith
      ['t', 'a', 'g', 's', ':', ' ', '#', 'c', 'o', 'n', 't', 'e', 'n', 't', ' ',
       '#', 'b', 'i', 't', 'c', 'o', 'i', 'n'] ['-', '-', '-'] = false := by decide
  have h3 : pyStartsWith ['-', '-', '-'] ['-', '-', '-'] = true := by decide
  rw [splitNl_headerMain]
  simp [findHeaderEnd, findHeaderEndAux, h1, h2, h3]

theorem joinNl_headerMain (c : String) :
    joinNl ["---".toList, "title: ".toList ++ (categoryTitle c).toList,
      "tags: #content #bitcoin".toList, "---".toList] = headerMain c := by
  rw [headerMain_shape]
  simp [joinNl, joinNl_cons_cons]

theorem headerMain_ne_nil (c : String) : headerMain c ≠ [] := by
  rw [headerMain_shape]
  simp

/-- The prepend splice on any file whose text is the header followed by
a newline and a body: the entry is inserted right after the header's
terminating delimiter, before the body, and the whole is re-stripped. -/
theorem spliceEntry_shaped (c : String) (entry Z : PyStr) :
    spliceEntry entry (headerMain c ++ '\n' :: Z) =
      pyStrip (headerMain c ++ '\n' :: (entry ++ '\n' :: Z)) ++ ['\n'] := by
  have hsplit : splitNl (headerMain c ++ '\n' :: Z)
      = splitNl (headerMain c) ++ splitNl Z := splitNl_append_nl _ _
  have hfhe : findHeaderEnd (splitNl (headerMain c) ++ splitNl Z) = 4 :=
    findHeaderEnd_header c _
  have htake : ((["---".toList, "title: ".toList ++ (categoryTitle c).toList,
        "tags: #content #bitcoin".toList, "---".toList] : List PyStr)
        ++ splitNl Z).take 4
      = ["---".toList, "title: ".toList ++ (categoryTitle c).toList,
        "tags: #content #bitcoin".toList, "---".toList] := rfl
  have hdrop : ((["---".toList, "title: ".toList ++ (categoryTitle c).toList,
        "tags: #content #bitcoin".toList, "---".toList] : List PyStr)
        ++ splitNl Z).drop 4 = splitNl Z := rfl
  simp only [spliceEntry]
  rw [hsplit, hfhe, splitNl_headerMain, htake, hdrop, joinNl_headerMain, joinNl_splitNl]

theorem headerMain_cons (c : String) : ∃ t, headerMain c = '-' :: t := by
  rw [headerMain_shape]
  rw [(by decide : ("---" : String).toList = '-' :: '-' :: '-' :: ([] : PyStr))]
  exact ⟨_, rfl⟩

/-- Stripping a header-plus-body text whose last non-whitespace content
is a `---` delimiter drops exactly the trailing whitespace `w`. -/
theorem pyStrip_header_entry (c : String) (M w : PyStr)
    (hw : ∀ ch ∈ w, isPySpace ch = true) :
    pyStrip (headerMain c ++ '\n' :: (M ++ ('-' :: '-' :: '-' :: w)))
      = headerMain c ++ '\n' :: (M ++ ['-', '-', '-']) := by
  have hassoc : headerMain c ++ '\n' :: (M ++ ('-' :: '-' :: '-' :: w))
      = (headerMain c ++ '\n' :: (M ++ ['-', '-', '-'])) ++ w := by
    simp [List.append_assoc]
  rw [hassoc]
  apply pyStrip_append_ws _ _ ?h1 ?h2 hw
  case h1 =>
    obtain ⟨t, ht⟩ := headerMain_cons c
    rw [ht, List.cons_append, List.dropWhile_cons]
    simp [isPySpace]
  case h2 =>
    have hrev : (headerMain c ++ '\n' :: (M ++ ['-', '-', '-'])).reverse
        = '-' :: ('-' :: '-' :: (M.reverse ++ '\n' :: (headerMain c).reverse)) := by
      simp
    rw [hrev, List.dropWhile_cons]
    simp [isPySpace]

/-- First append to a non-existent file: the result is exactly one
header block followed by the formatted entry. -/
theorem appendContentFile_fresh (c : String) (e : EntryArgs) :
    appendContentFile c e true [] = headerMain c ++ '\n' :: formatEntry e := by
  have hfe : formatEntry e = entryBody e ++ ['\n', '-', '-', '-', '\n'] := by
    unfold formatEntry
    rw [(by decide : ("\n---\n" : String).toList = ['\n', '-', '-', '-', '\n'])]
  unfold appendContentFile
  rw [if_pos rfl, if_pos rfl, getHeader_eq,
      (rfl : (['\n', '\n'] : PyStr) = '\n' :: ['\n']), spliceEntry_shaped, hfe]
  have hres : (entryBody e ++ ['\n', '-', '-', '-', '\n']) ++ '\n' :: ['\n']
      = (entryBody e ++ ['\n']) ++ ('-' :: '-' :: '-' :: ['\n', '\n', '\n']) := by
    simp [List.append_assoc]
  rw [hres, pyStrip_header_entry c (entryBody e ++ ['\n']) ['\n', '\n', '\n'] (by decide)]
  simp [List.append_assoc]

/-- Subsequent append to a file of header-then-body shape ending in the
entry delimiter: no second header is created, and the new entry is
spliced directly after the header's terminating delimiter line and
before the whole previous body `R ++ "---\n"`. -/
theorem appendContentFile_subsequent (c : String) (e : EntryArgs) (R : PyStr) :
    appendContentFile c e true (headerMain c ++ '\n' :: (R ++ ['-', '-', '-', '\n'])) =
      headerMain c ++ '\n' :: (formatEntry e ++ '\n' :: (R ++ ['-', '-', '-', '\n'])) := by
  have hne : headerMain c ++ '\n' :: (R ++ ['-', '-', '-', '\n']) ≠ [] := by simp
  unfold appendContentFile
  rw [if_neg hne, if_pos rfl, spliceEntry_shaped]
  have hres : formatEntry e ++ '\n' :: (R ++ ['-', '-', '-', '\n'])
      = (formatEntry e ++ '\n' :: R) ++ ('-' :: '-' :: '-' :: ['\n']) := by
    simp [List.append_assoc]
  rw [hres, pyStrip_header_entry c (formatEntry e ++ '\n' :: R) ['\n'] (by decide)]
  simp [List.append_assoc]

/-! ### Record-store projection lemmas -/

theorem insert_article_contents (h : String → String) (db : DB) (u t s : String)
    (p : Option String) : (insert_article h db u t s p).2.contents = db.contents := rfl

theorem update_score_contents (db : DB) (i : Nat) (s : ℚ) (re st' : String) :
    (update_score db i s re st').contents = db.contents := rfl

theorem insert_content_articles (db : DB) (i : Nat) (t c : String) :
    (insert_content db i t c).articles = db.articles := rfl

theorem assignCategory_generated (s hi md : ℚ) (stats : Stats) :
    (assignCategory s hi md stats).2.2.generated = stats.generated := by
  unfold assignCategory
  split_ifs <;> rfl

theorem generationGate_iff (sr : ScoreResult) (md : ℚ) :
    generationGate sr md = true ↔ md ≤ sr.score ∧ sr.is_bitcoin_relevant = true := by
  simp [generationGate, ge_iff_le]

/-- Claim C2: for an inserted and scored article, content generation is
invoked (the `generated` counter is bumped, mirroring the call into
`generate_content` at pipeline.py line 116) if and only if
`score >= score_medium` and `is_bitcoin_relevant` is true; in every
other combination generation is skipped and no generated-content row is
produced. -/
theorem c2_generation_gate (h : String → String) (scoreOf : Article → ScoreResult)
    (genOf : Article → GeneratedContent) (cfg : Config) (st : RunState) (a : Article) :
    ((processArticle h scoreOf genOf cfg st a).stats.generated = st.stats.generated + 1 ↔
      (cfg.score_medium ≤ (scoreOf a).score ∧ (scoreOf a).is_bitcoin_relevant = true)) ∧
    ((processArticle h scoreOf genOf cfg st a).stats.generated = st.stats.generated ↔
      ¬ (cfg.score_medium ≤ (scoreOf a).score ∧ (scoreOf a).is_bitcoin_relevant = true)) ∧
    (¬ (cfg.score_medium ≤ (scoreOf a).score ∧ (scoreOf a).is_bitcoin_relevant = true) →
      (processArticle h scoreOf genOf cfg st a).db.contents = st.db.contents) := by
  by_cases hg : generationGate (scoreOf a) cfg.score_medium = true
  · have hgp := (generationGate_iff (scoreOf a) cfg.score_medium).mp hg
    refine ⟨?_, ?_, ?_⟩
    · simp [processArticle, hg, assignCategory_generated, hgp]
    · simp [processArticle, hg, assignCategory_generated, hgp]
    · intro hc
      exact absurd hgp hc
  · have hgp : ¬ (cfg.score_medium ≤ (scoreOf a).score ∧ (scoreOf a).is_bitcoin_relevant = true) :=
      fun hc => hg ((generationGate_iff (scoreOf a) cfg.score_medium).mpr hc)
    refine ⟨?_, ?_, ?_⟩
    · simp [processArticle, hg, assignCategory_generated, hgp]
    · simp [processArticle, hg, assignCategory_generated, hgp]
    · intro _
      simp [processArticle, hg, update_score_contents, insert_article_contents]

/-! ### Category bands (claim C1) -/

theorem assignCategory_status_bands (hi md : ℚ) (hm : md ≤ hi) (s : ℚ) (stats : Stats) :
    ((assignCategory s hi md stats).2.1 = "ready" ↔ hi ≤ s) ∧
    ((assignCategory s hi md stats).2.1 = "review" ↔ md ≤ s ∧ s < hi) ∧
    ((assignCategory s hi md stats).2.1 = "archived" ↔ s < md) := by
  unfold assignCategory
  split_ifs with h1 h2
  · exact ⟨iff_of_true rfl h1,
      iff_of_false (by simp) (fun hc => absurd h1 (not_le.mpr hc.2)),
      iff_of_false (by simp) (fun hc => absurd (le_trans hm h1) (not_le.mpr hc))⟩
  · exact ⟨iff_of_false (by simp) h1,
      iff_of_true rfl ⟨h2, not_le.mp h1⟩,
      iff_of_false (by simp) (not_lt.mpr h2)⟩
  · exact ⟨iff_of_false (by simp) h1,
      iff_of_false (by simp) (fun hc => h2 hc.1),
      iff_of_true rfl (not_le.mp h2)⟩

theorem assignCategory_category_bands (hi md : ℚ) (hm : md ≤ hi) (s : ℚ) (stats : Stats) :
    ((assignCategory s hi md stats).1 = "ready" ↔ hi ≤ s) ∧
    ((assignCategory s hi md stats).1 = "review" ↔ md ≤ s ∧ s < hi) ∧
    ((assignCategory s hi md stats).1 = "archive" ↔ s < md) := by
  unfold assignCategory
  split_ifs with h1 h2
  · exact ⟨iff_of_true rfl h1,
      iff_of_false (by simp) (fun hc => absurd h1 (not_le.mpr hc.2)),
      iff_of_false (by simp) (fun hc => absurd (le_trans hm h1) (not_le.mpr hc))⟩
  · exact ⟨iff_of_false (by simp) h1,
      iff_of_true rfl ⟨h2, not_le.mp h1⟩,
      iff_of_false (by simp) (not_lt.mpr h2)⟩
  · exact ⟨iff_of_false (by simp) h1,
      iff_of_false (by simp) (fun hc => h2 hc.1),
      iff_of_true rfl (not_le.mp h2)⟩

theorem assignCategory_status_of_category (hi md s : ℚ) (stats : Stats) :
    ((assignCategory s hi md stats).1 = "ready" →
      (assignCategory s hi md stats).2.1 = "ready") ∧
    ((assignCategory s hi md stats).1 = "review" →
      (assignCategory s hi md stats).2.1 = "review") ∧
    ((assignCategory s hi md stats).1 = "archive" →
      (assignCategory s hi md stats).2.1 = "archived") := by
  unfold assignCategory
  split_ifs <;> refine ⟨fun hc => ?_, fun hc => ?_, fun hc => ?_⟩ <;> simp_all

/-- A persisted row's status agrees with the category bands derived
from its persisted score, whenever it has one. -/
def rowBandsOK (hi md : ℚ) (r : ArticleRow) : Prop :=
  ∀ s : ℚ, r.score = some s →
    ((r.status = "ready" ↔ hi ≤ s) ∧
     (r.status = "review" ↔ md ≤ s ∧ s < hi) ∧
     (r.status = "archived" ↔ s < md))

theorem rowBandsOK_insert (hi md : ℚ) (h : String → String) (db : DB)
    (u t so : String) (p : Option String)
    (hdb : ∀ r ∈ db.articles, rowBandsOK hi md r) :
    ∀ r ∈ (insert_article h db u t so p).2.articles, rowBandsOK hi md r := by
  intro r hr
  simp only [insert_article, List.mem_append, List.mem_singleton] at hr
  rcases hr with hr | hr
  · exact hdb r hr
  · subst hr
    intro s hs
    simp at hs

theorem rowBandsOK_update (hi md : ℚ) (db : DB) (i : Nat) (s : ℚ) (re status : String)
    (hst : (status = "ready" ↔ hi ≤ s) ∧ (status = "review" ↔ md ≤ s ∧ s < hi) ∧
      (status = "archived" ↔ s < md))
    (hdb : ∀ r ∈ db.articles, rowBandsOK hi md r) :
    ∀ r ∈ (update_score db i s re status).articles, rowBandsOK hi md r := by
  intro r hr
  simp only [update_score, List.mem_map] at hr
  obtain ⟨r0, hr0, hmap⟩ := hr
  by_cases hid : r0.id = i
  · rw [if_pos hid] at hmap
    subst hmap
    intro s' hs'
    simp only at hs'
    obtain rfl : s = s' := by simpa using hs'
    exact hst
  · rw [if_neg hid] at hmap
    subst hmap
    exact hdb r0 hr0

theorem processArticle_articles (h : String → String) (scoreOf : Article → ScoreResult)
    (genOf : Article → GeneratedContent) (cfg : Config) (st : RunState) (a : Article) :
    (processArticle h scoreOf genOf cfg st a).db.articles =
      (update_score (insert_article h st.db a.url a.title a.source a.published_at).2
        (insert_article h st.db a.url a.title a.source a.published_at).1
        (scoreOf a).score (scoreOf a).reason
        (assignCategory (scoreOf a).score cfg.score_high cfg.score_medium
          { st.stats with scored := st.stats.scored + 1 }).2.1).articles := by
  unfold processArticle
  by_cases hg : generationGate (scoreOf a) cfg.score_medium = true
  · simp only [hg, if_true]
    split_ifs <;> simp [insert_content_articles]
  · simp [hg]

theorem rowBandsOK_processArticle (hi md : ℚ) (hm : md ≤ hi)
    (h : String → String) (scoreOf : Article → ScoreResult)
    (genOf : Article → GeneratedContent) (maxA : Int) (dry : Bool)
    (st : RunState) (a : Article)
    (hdb : ∀ r ∈ st.db.articles, rowBandsOK hi md r) :
    ∀ r ∈ (processArticle h scoreOf genOf ⟨hi, md, maxA, dry⟩ st a).db.articles,
      rowBandsOK hi md r := by
  intro r hr
  rw [processArticle_articles] at hr
  exact rowBandsOK_update hi md _ _ _ _ _
    (assignCategory_status_bands hi md hm _ _)
    (rowBandsOK_insert hi md h st.db _ _ _ _ hdb) r hr

theorem rowBandsOK_runLoop (hi md : ℚ) (hm : md ≤ hi)
    (h : String → String) (scoreOf : Article → ScoreResult)
    (genOf : Article → GeneratedContent) (maxA : Int) (dry : Bool) :
    ∀ (l : List Article) (st : RunState),
      (∀ r ∈ st.db.articles, rowBandsOK hi md r) →
      ∀ r ∈ (runLoop h scoreOf genOf ⟨hi, md, maxA, dry⟩ l st).db.articles,
        rowBandsOK hi md r := by
  intro l
  induction l with
  | nil =>
    intro st hdb
    simpa [runLoop] using hdb
  | cons a rest ih =>
    intro st hdb
    rw [runLoop]
    by_cases hdup : article_exists h st.db a.url = true
    · simp only [hdup, if_true]
      exact ih _ hdb
    · simp only [hdup, if_false, Bool.false_eq_true]
      split_ifs with hbudget
      · exact hdb
      · exact ih _ (rowBandsOK_processArticle hi md hm h scoreOf genOf maxA dry _ a hdb)

/-- Claim C1: for every scored article processed by `run_pipeline`, the
assigned category is `ready` iff `score >= score_high`, `review` iff
`score_medium <= score < score_high`, and `archive` iff
`score < score_medium` (boundary values land in the higher band), the
persisted status is `ready`, `review` or `archived` respectively, and
consequently every row persisted by a run has status matching the bands
of its persisted score. -/
theorem c1_category_bands (hi md : ℚ) (hm : md ≤ hi) :
    (∀ (s : ℚ) (stats : Stats),
      ((assignCategory s hi md stats).1 = "ready" ↔ hi ≤ s) ∧
      ((assignCategory s hi md stats).1 = "review" ↔ md ≤ s ∧ s < hi) ∧
      ((assignCategory s hi md stats).1 = "archive" ↔ s < md) ∧
      ((assignCategory s hi md stats).1 = "ready" →
        (assignCategory s hi md stats).2.1 = "ready") ∧
      ((assignCategory s hi md stats).1 = "review" →
        (assignCategory s hi md stats).2.1 = "review") ∧
      ((assignCategory s hi md stats).1 = "archive" →
        (assignCategory s hi md stats).2.1 = "archived")) ∧
    (∀ (h : String → String) (scoreOf : Article → ScoreResult)
      (genOf : Article → GeneratedContent) (maxA : Int) (dry : Bool)
      (l : List Article) (st : RunState),
      (∀ r ∈ st.db.articles, rowBandsOK hi md r) →
      ∀ r ∈ (runLoop h scoreOf genOf ⟨hi, md, maxA, dry⟩ l st).db.articles,
        rowBandsOK hi md r) := by
  constructor
  · intro s stats
    obtain ⟨hc1, hc2, hc3⟩ := assignCategory_category_bands hi md hm s stats
    obtain ⟨hs1, hs2, hs3⟩ := assignCategory_status_of_category hi md s stats
    exact ⟨hc1, hc2, hc3, hs1, hs2, hs3⟩
  · intro h scoreOf genOf maxA dry l st hdb
    exact rowBandsOK_runLoop hi md hm h scoreOf genOf maxA dry l st hdb

/-- Witness for C1 at the default thresholds 7 and 4. -/
theorem c1_category_bands_witness :
    (4 : ℚ) ≤ 7 ∧
    ((∀ (s : ℚ) (stats : Stats),
      ((assignCategory s 7 4 stats).1 = "ready" ↔ 7 ≤ s) ∧
      ((assignCategory s 7 4 stats).1 = "review" ↔ 4 ≤ s ∧ s < 7) ∧
      ((assignCategory s 7 4 stats).1 = "archive" ↔ s < 4) ∧
      ((assignCategory s 7 4 stats).1 = "ready" →
        (assignCategory s 7 4 stats).2.1 = "ready") ∧
      ((assignCategory s 7 4 stats).1 = "review" →
        (assignCategory s 7 4 stats).2.1 = "review") ∧
      ((assignCategory s 7 4 stats).1 = "archive" →
        (assignCategory s 7 4 stats).2.1 = "archived")) ∧
    (∀ (h : String → String) (scoreOf : Article → ScoreResult)
      (genOf : Article → GeneratedContent) (maxA : Int) (dry : Bool)
      (l : List Article) (st : RunState),
      (∀ r ∈ st.db.articles, rowBandsOK 7 4 r) →
      ∀ r ∈ (runLoop h scoreOf genOf ⟨7, 4, maxA, dry⟩ l st).db.articles,
        rowBandsOK 7 4 r)) :=
  ⟨by decide, c1_category_bands 7 4 (by decide)⟩

/-! ### Deduplication (claim C3) -/

/-- The store holds no two article rows with the same URL. -/
def NoDupUrls (db : DB) : Prop := (db.articles.map (fun r => r.url)).Nodup

/-- Every row's stored hash is the hash of its stored URL (true of
every row ever written by `insert_article`). -/
def HashConsistent (h : String → String) (db : DB) : Prop :=
  ∀ r ∈ db.articles, r.url_hash = h r.url

theorem runLoop_skip_duplicate (h : String → String) (scoreOf : Article → ScoreResult)
    (genOf : Article → GeneratedContent) (cfg : Config) (st : RunState) (a : Article)
    (rest : List Article) (hdup : article_exists h st.db a.url = true) :
    runLoop h scoreOf genOf cfg (a :: rest) st =
      runLoop h scoreOf genOf cfg rest
        { st with stats := { st.stats with
            fetched := st.stats.fetched + 1,
            skipped_duplicate := st.stats.skipped_duplicate + 1 } } := by
  rw [runLoop]
  simp only [hdup, if_true]

theorem hashConsistent_insert (h : String → String) (db : DB) (u t so : String)
    (p : Option String) (hdb : HashConsistent h db) :
    HashConsistent h (insert_article h db u t so p).2 := by
  intro r hr
  simp only [insert_article, List.mem_append, List.mem_singleton] at hr
  rcases hr with hr | hr
  · exact hdb r hr
  · subst hr
    rfl

theorem hashConsistent_update (h : String → String) (db : DB) (i : Nat) (s : ℚ)
    (re status : String) (hdb : HashConsistent h db) :
    HashConsistent h (update_score db i s re status) := by
  intro r hr
  simp only [update_score, List.mem_map] at hr
  obtain ⟨r0, hr0, hmap⟩ := hr
  by_cases hid : r0.id = i
  · rw [if_pos hid] at hmap
    subst hmap
    exact hdb r0 hr0
  · rw [if_neg hid] at hmap
    subst hmap
    exact hdb r0 hr0

theorem update_score_map_url (db : DB) (i : Nat) (s : ℚ) (re status : String) :
    (update_score db i s re status).articles.map (fun r => r.url) =
      db.articles.map (fun r => r.url) := by
  simp only [update_score, List.map_map]
  congr 1
  funext r
  by_cases hid : r.id = i <;> simp [hid]

theorem noDupUrls_insert (h : String → String) (db : DB) (u t so : String)
    (p : Option String) (hnew : article_exists h db u = false)
    (hhc : HashConsistent h db) (hnd : NoDupUrls db) :
    NoDupUrls (insert_article h db u t so p).2 := by
  unfold NoDupUrls at *
  simp only [insert_article, List.map_append, List.map_cons, List.map_nil]
  rw [List.nodup_append]
  refine ⟨hnd, List.nodup_singleton _, ?_⟩
  intro x hx hxu
  simp only [List.mem_singleton] at hxu
  obtain ⟨r, hr, hru⟩ := List.mem_map.mp hx
  have hruu : r.url = u := hxu ▸ hru
  have hex : article_exists h db u = true := by
    simp only [article_exists, List.any_eq_true]
    exact ⟨r, hr, by rw [beq_iff_eq, hhc r hr, hruu]⟩
  rw [hex] at hnew
  exact Bool.true_eq_false.mp hnew

theorem dedup_processArticle (h : String → String) (scoreOf : Article → ScoreResult)
    (genOf : Article → GeneratedContent) (cfg : Config) (st : RunState) (a : Article)
    (hnew : article_exists h st.db a.url = false)
    (hhc : HashConsistent h st.db) (hnd : NoDupUrls st.db) :
    HashConsistent h (processArticle h scoreOf genOf cfg st a).db ∧
    NoDupUrls (processArticle h scoreOf genOf cfg st a).db := by
  constructor
  · intro r hr
    rw [processArticle_articles] at hr
    exact hashConsistent_update h _ _ _ _ _
      (hashConsistent_insert h st.db _ _ _ _ hhc) r hr
  · unfold NoDupUrls
    rw [processArticle_articles, update_score_map_url]
    exact noDupUrls_insert h st.db _ _ _ _ hnew hhc hnd

theorem dedup_runLoop (h : String → String) (scoreOf : Article → ScoreResult)
    (genOf : Article → GeneratedContent) (cfg : Config) :
    ∀ (l : List Article) (st : RunState),
      HashConsistent h st.db → NoDupUrls st.db →
      HashConsistent h (runLoop h scoreOf genOf cfg l st).db ∧
      NoDupUrls (runLoop h scoreOf genOf cfg l st).db := by
  intro l
  induction l with
  | nil =>
    intro st h1 h2
    rw [runLoop]
    exact ⟨h1, h2⟩
  | cons a rest ih =>
    intro st h1 h2
    rw [runLoop]
    by_cases hdup : article_exists h st.db a.url = true
    · simp only [hdup, if_true]
      exact ih _ h1 h2
    · simp only [hdup, if_false, Bool.false_eq_true]
      split_ifs with hbudget
      · exact ⟨h1, h2⟩
      · have hnew : article_exists h st.db a.url = false :=
          Bool.not_eq_true _ ▸ Bool.eq_false_iff.mpr hdup
        obtain ⟨hh, hn⟩ := dedup_processArticle h scoreOf genOf cfg
          { st with stats := { st.stats with
              fetched := st.stats.fetched + 1, new := st.stats.new + 1 } } a hnew h1 h2
        exact ih _ hh hn

/-- Claim C3: an article whose URL already exists in the store at the
dedup check only bumps the fetched and skipped_duplicate counters and
is otherwise not processed at all (no insert, no scoring, no write);
and any run started on a hash-consistent store without duplicate URLs
ends without duplicate URLs. -/
theorem c3_dedup (h : String → String) (scoreOf : Article → ScoreResult)
    (genOf : Article → GeneratedContent) (cfg : Config) :
    (∀ (st : RunState) (a : Article) (rest : List Article),
      article_exists h st.db a.url = true →
      runLoop h scoreOf genOf cfg (a :: rest) st =
        runLoop h scoreOf genOf cfg rest
          { st with stats := { st.stats with
              fetched := st.stats.fetched + 1,
              skipped_duplicate := st.stats.skipped_duplicate + 1 } }) ∧
    (∀ (l : List Article) (st : RunState),
      HashConsistent h st.db → NoDupUrls st.db →
      NoDupUrls (runLoop h scoreOf genOf cfg l st).db) :=
  ⟨fun st a rest hdup => runLoop_skip_duplicate h scoreOf genOf cfg st a rest hdup,
   fun l st h1 h2 => (dedup_runLoop h scoreOf genOf cfg l st h1 h2).2⟩

/-- Concrete instances used by witnesses and counterexamples. The hash
stand-in is the identity function (any deterministic hash works for
these runs). -/
def hashId : String → String := fun u => u

def scoreW : Article → ScoreResult := fun _ => ⟨8, "good", true⟩

def genW : Article → GeneratedContent := fun _ => ⟨"tw", "th", "li"⟩

def artW : Article := ⟨"https://e.com/a", "T", "sum", "S", none⟩

def dbW : DB :=
  ⟨[⟨1, "https://e.com/a", "https://e.com/a", "T", "S", none, none, none, "new"⟩], [], 2⟩

def stW : RunState := ⟨dbW, initStats, [], 0⟩

/-- Witness for C3: a store already holding the URL; re-processing it
skips and leaves the store duplicate-free. -/
theorem c3_dedup_witness :
    article_exists hashId dbW artW.url = true ∧
    runLoop hashId scoreW genW ⟨7, 4, 20, false⟩ [artW] stW =
      runLoop hashId scoreW genW ⟨7, 4, 20, false⟩ []
        { stW with stats := { stW.stats with
            fetched := stW.stats.fetched + 1,
            skipped_duplicate := stW.stats.skipped_duplicate + 1 } } ∧
    NoDupUrls (runLoop hashId scoreW genW ⟨7, 4, 20, false⟩ [artW] stW).db := by
  have hd : article_exists hashId dbW artW.url = true := by decide
  exact ⟨hd,
    (c3_dedup hashId scoreW genW ⟨7, 4, 20, false⟩).1 stW artW [] hd,
    (c3_dedup hashId scoreW genW ⟨7, 4, 20, false⟩).2 [artW] stW
      (by unfold HashConsistent; decide) (by unfold NoDupUrls; decide)⟩

/-! ### Dry-run frame property (claim C5) -/

theorem processArticle_core_dry (h : String → String) (scoreOf : Article → ScoreResult)
    (genOf : Article → GeneratedContent) (hi md : ℚ) (maxA : Int)
    (st st' : RunState) (a : Article)
    (hdb : st.db = st'.db) (hstats : st.stats = st'.stats) :
    (processArticle h scoreOf genOf ⟨hi, md, maxA, true⟩ st a).db =
      (processArticle h scoreOf genOf ⟨hi, md, maxA, false⟩ st' a).db ∧
    (processArticle h scoreOf genOf ⟨hi, md, maxA, true⟩ st a).stats =
      (processArticle h scoreOf genOf ⟨hi, md, maxA, false⟩ st' a).stats ∧
    (processArticle h scoreOf genOf ⟨hi, md, maxA, true⟩ st a).processed = st.processed + 1 ∧
    (processArticle h scoreOf genOf ⟨hi, md, maxA, false⟩ st' a).processed = st'.processed + 1 ∧
    (processArticle h scoreOf genOf ⟨hi, md, maxA, true⟩ st a).writes = st.writes := by
  unfold processArticle
  rw [hdb, hstats]
  exact ⟨rfl, rfl, rfl, rfl, rfl⟩

theorem runLoop_dry_core (h : String → String) (scoreOf : Article → ScoreResult)
    (genOf : Article → GeneratedContent) (hi md : ℚ) (maxA : Int) :
    ∀ (l : List Article) (st st' : RunState),
      st.db = st'.db → st.stats = st'.stats → st.processed = st'.processed →
      (runLoop h scoreOf genOf ⟨hi, md, maxA, true⟩ l st).db =
        (runLoop h scoreOf genOf ⟨hi, md, maxA, false⟩ l st').db ∧
      (runLoop h scoreOf genOf ⟨hi, md, maxA, true⟩ l st).stats =
        (runLoop h scoreOf genOf ⟨hi, md, maxA, false⟩ l st').stats ∧
      (runLoop h scoreOf genOf ⟨hi, md, maxA, true⟩ l st).processed =
        (runLoop h scoreOf genOf ⟨hi, md, maxA, false⟩ l st').processed ∧
      (runLoop h scoreOf genOf ⟨hi, md, maxA, true⟩ l st).writes = st.writes := by
  intro l
  induction l with
  | nil =>
    intro st st' h1 h2 h3
    rw [runLoop, runLoop]
    exact ⟨h1, h2, h3, rfl⟩
  | cons a rest ih =>
    intro st st' h1 h2 h3
    obtain ⟨db, stats, writes, proc⟩ := st
    obtain ⟨db', stats', writes', proc'⟩ := st'
    simp only at h1 h2 h3
    subst h1
    subst h2
    subst h3
    rw [runLoop, runLoop]
    by_cases hdup : article_exists h db a.url = true
    · simp only [hdup, if_true]
      exact ih _ _ rfl rfl rfl
    · simp only [hdup, if_false, Bool.false_eq_true]
      split_ifs with hb
      · exact ⟨rfl, rfl, rfl, rfl⟩
      · obtain ⟨pd, ps, pp, pp', pw⟩ := processArticle_core_dry h scoreOf genOf hi md maxA
          ⟨db, { stats with fetched := stats.fetched + 1, new := stats.new + 1 }, writes, proc⟩
          ⟨db, { stats with fetched := stats.fetched + 1, new := stats.new + 1 }, writes', proc⟩
          a rfl rfl
        obtain ⟨ihd, ihs, ihp, ihw⟩ := ih _ _ pd ps (by rw [pp, pp'])
        exact ⟨ihd, ihs, ihp, by rw [ihw, pw]⟩

/-- Claim C5: a dry run performs no output write at all (the category
files are untouched, hence byte-identical), while its record-store
mutations and final stats are identical to the non-dry run on the same
inputs. -/
theorem c5_dry_run_frame (h : String → String) (scoreOf : Article → ScoreResult)
    (genOf : Article → GeneratedContent) (hi md : ℚ) (maxA : Int)
    (l : List Article) (st : RunState) :
    (runLoop h scoreOf genOf ⟨hi, md, maxA, true⟩ l st).writes = st.writes ∧
    (runLoop h scoreOf genOf ⟨hi, md, maxA, true⟩ l st).db =
      (runLoop h scoreOf genOf ⟨hi, md, maxA, false⟩ l st).db ∧
    (runLoop h scoreOf genOf ⟨hi, md, maxA, true⟩ l st).stats =
      (runLoop h scoreOf genOf ⟨hi, md, maxA, false⟩ l st).stats := by
  obtain ⟨hdb, hstats, _, hwrites⟩ :=
    runLoop_dry_core h scoreOf genOf hi md maxA l st st rfl rfl rfl
  exact ⟨hwrites, hdb, hstats⟩

/-! ### Budget exhaustion (claim C4) -/

/-- How many feed entries the loop pulls when the budget is exhausted:
every duplicate before the first non-duplicate, plus that non-duplicate
itself (all remaining entries when every one is a duplicate). -/
def fetchSpan (h : String → String) (db : DB) : List Article → Nat
  | [] => 0
  | a :: rest => if article_exists h db a.url then fetchSpan h db rest + 1 else 1

/-- Whether some entry in the list is not yet in the store. -/
def anyNew (h : String → String) (db : DB) (l : List Article) : Bool :=
  l.any (fun a => !(article_exists h db a.url))

/-- Claim C4 (amended): once the run-scoped budget is exhausted
(`processed >= max_articles`, in particular any run with
`max_articles = 0`), the loop performs no insert, no scoring, no
generation and no write; it keeps pulling (and counting) duplicate
entries, stops at the first non-duplicate entry — which still bumps the
`new` counter before the break — and abandons the remaining entries. -/
theorem c4_budget_stop (h : String → String) (scoreOf : Article → ScoreResult)
    (genOf : Article → GeneratedContent) (hi md : ℚ) (maxA : Int) (dry : Bool) :
    ∀ (l : List Article) (st : RunState), maxA ≤ (st.processed : Int) →
      (runLoop h scoreOf genOf ⟨hi, md, maxA, dry⟩ l st).db = st.db ∧
      (runLoop h scoreOf genOf ⟨hi, md, maxA, dry⟩ l st).writes = st.writes ∧
      (runLoop h scoreOf genOf ⟨hi, md, maxA, dry⟩ l st).processed = st.processed ∧
      (runLoop h scoreOf genOf ⟨hi, md, maxA, dry⟩ l st).stats.scored = st.stats.scored ∧
      (runLoop h scoreOf genOf ⟨hi, md, maxA, dry⟩ l st).stats.generated =
        st.stats.generated ∧
      (runLoop h scoreOf genOf ⟨hi, md, maxA, dry⟩ l st).stats.fetched =
        st.stats.fetched + fetchSpan h st.db l ∧
      (runLoop h scoreOf genOf ⟨hi, md, maxA, dry⟩ l st).stats.new =
        st.stats.new + (if anyNew h st.db l then 1 else 0) := by
  intro l
  induction l with
  | nil =>
    intro st hb
    rw [runLoop]
    simp [fetchSpan, anyNew]
  | cons a rest ih =>
    intro st hb
    obtain ⟨db, stats, writes, proc⟩ := st
    rw [runLoop]
    by_cases hdup : article_exists h db a.url = true
    · have hspan : fetchSpan h db (a :: rest) = fetchSpan h db rest + 1 := by
        rw [fetchSpan, if_pos hdup]
      have hany : anyNew h db (a :: rest) = anyNew h db rest := by
        simp [anyNew, hdup]
      simp only [hdup, if_true]
      obtain ⟨ihd, ihw, ihp, ihsc, ihg, ihf, ihn⟩ :=
        ih ⟨db, { stats with fetched := stats.fetched + 1, skipped_duplicate := stats.skipped_duplicate + 1 }, writes, proc⟩ hb
      refine ⟨ihd, ihw, ihp, ihsc, ihg, ?_, ?_⟩
      · rw [ihf]
        dsimp only
        rw [hspan]
        omega
      · rw [ihn]
        dsimp only
        rw [hany]
    · have hspan : fetchSpan h db (a :: rest) = 1 := by
        rw [fetchSpan, if_neg hdup]
      have hany : anyNew h db (a :: rest) = true := by
        have hf : article_exists h db a.url = false := by
          revert hdup
          cases article_exists h db a.url <;> simp
        simp [anyNew, hf]
      simp only [hdup, if_false, Bool.false_eq_true]
      split_ifs with hcond
      · refine ⟨rfl, rfl, rfl, rfl, rfl, ?_, ?_⟩
        · simp [hspan]
        · simp [hany]
      · exact absurd hb hcond

/-- A run state with an empty store and zeroed counters. -/
def st0 : RunState := ⟨emptyDB, initStats, [], 0⟩

/-- Counterexample for C4: with `max_articles = 0` and a single fresh
article, the run inserts nothing and never calls the provider, but the
reported stats have `new = 1`, not `new = 0` — the `new` counter is
bumped before the budget check breaks out of the loop. -/
theorem c4_counterexample :
    (runPipeline hashId scoreW genW ⟨7, 4, 0, false⟩ emptyDB [artW]).stats.new = 1 ∧
    ¬ (runPipeline hashId scoreW genW ⟨7, 4, 0, false⟩ emptyDB [artW]).stats.new = 0 ∧
    (runPipeline hashId scoreW genW ⟨7, 4, 0, false⟩ emptyDB [artW]).db.articles = [] ∧
    (runPipeline hashId scoreW genW ⟨7, 4, 0, false⟩ emptyDB [artW]).stats.scored = 0 ∧
    (runPipeline hashId scoreW genW ⟨7, 4, 0, false⟩ emptyDB [artW]).stats.fetched = 1 := by
  refine ⟨?_, ?_, ?_, ?_, ?_⟩ <;> decide

/-- Witness for C4 (amended) at `max_articles = 0` with one fresh
article. -/
theorem c4_budget_stop_witness :
    ((0 : Int) ≤ ((st0.processed : Nat) : Int)) ∧
    ((runLoop hashId scoreW genW ⟨7, 4, 0, false⟩ [artW] st0).db = st0.db ∧
     (runLoop hashId scoreW genW ⟨7, 4, 0, false⟩ [artW] st0).writes = st0.writes ∧
     (runLoop hashId scoreW genW ⟨7, 4, 0, false⟩ [artW] st0).processed = st0.processed ∧
     (runLoop hashId scoreW genW ⟨7, 4, 0, false⟩ [artW] st0).stats.scored =
       st0.stats.scored ∧
     (runLoop hashId scoreW genW ⟨7, 4, 0, false⟩ [artW] st0).stats.generated =
       st0.stats.generated ∧
     (runLoop hashId scoreW genW ⟨7, 4, 0, false⟩ [artW] st0).stats.fetched =
       st0.stats.fetched + fetchSpan hashId st0.db [artW] ∧
     (runLoop hashId scoreW genW ⟨7, 4, 0, false⟩ [artW] st0).stats.new =
       st0.stats.new + (if anyNew hashId st0.db [artW] then 1 else 0)) :=
  ⟨by decide, c4_budget_stop hashId scoreW genW 7 4 0 false [artW] st0 (by decide)⟩

/-! ### Threshold-ordering validation (claim C9) -/

theorem assignCategory_scored (s hi md : ℚ) (stats : Stats) :
    (assignCategory s hi md stats).2.2.scored = stats.scored := by
  unfold assignCategory
  split_ifs <;> rfl

/-- Counterexample for C9: a configuration with
`score_high = 3 < 5 = score_medium` is accepted and the run proceeds —
one article is scored and persisted (with status `ready`, by the
cascade) instead of the run being refused. -/
theorem c9_counterexample :
    (3 : ℚ) < 5 ∧
    (runPipeline hashId (fun _ => ⟨4, "mid", true⟩) genW ⟨3, 5, 20, false⟩
      emptyDB [artW]).stats.scored = 1 ∧
    (runPipeline hashId (fun _ => ⟨4, "mid", true⟩) genW ⟨3, 5, 20, false⟩
      emptyDB [artW]).db.articles.map (fun r => r.status) = ["ready"] := by
  refine ⟨?_, ?_, ?_⟩ <;> decide

/-- Claim C9 (amended): no threshold-ordering validation exists; with
`score_high < score_medium` the pipeline still processes every article
normally — it inserts, scores, and applies the cascade as written, so a
score at or above `score_high` is persisted as `ready` even though it
is below `score_medium`. -/
theorem c9_no_threshold_validation (h : String → String)
    (scoreOf : Article → ScoreResult) (genOf : Article → GeneratedContent)
    (hi md : ℚ) (maxA : Int) (dry : Bool) (hbad : hi < md)
    (st : RunState) (a : Article) :
    (processArticle h scoreOf genOf ⟨hi, md, maxA, dry⟩ st a).stats.scored =
      st.stats.scored + 1 ∧
    (processArticle h scoreOf genOf ⟨hi, md, maxA, dry⟩ st a).db.articles.length =
      st.db.articles.length + 1 ∧
    (hi ≤ (scoreOf a).score →
      ∃ r ∈ (processArticle h scoreOf genOf ⟨hi, md, maxA, dry⟩ st a).db.articles,
        r.status = "ready") := by
  refine ⟨?_, ?_, ?_⟩
  · by_cases hg : generationGate (scoreOf a) md = true
    · simp [processArticle, hg, assignCategory_scored]
    · simp [processArticle, hg, assignCategory_scored]
  · rw [processArticle_articles]
    simp [update_score, insert_article]
  · intro hsc
    have hsc' : (scoreOf a).score ≥ hi := hsc
    rw [processArticle_articles]
    refine ⟨_, List.mem_map_of_mem _ (List.mem_append_right _ (List.mem_singleton_self _)), ?_⟩
    simp only [insert_article]
    rw [if_pos trivial]
    dsimp only
    unfold assignCategory
    rw [if_pos hsc']

/-- Witness for C9 (amended): thresholds 3 < 5, article scored 8. -/
theorem c9_no_threshold_validation_witness :
    ((3 : ℚ) < 5) ∧
    ((processArticle hashId scoreW genW ⟨3, 5, 20, false⟩ st0 artW).stats.scored =
       st0.stats.scored + 1 ∧
     (processArticle hashId scoreW genW ⟨3, 5, 20, false⟩ st0 artW).db.articles.length =
       st0.db.articles.length + 1 ∧
     ((3 : ℚ) ≤ (scoreW artW).score →
       ∃ r ∈ (processArticle hashId scoreW genW ⟨3, 5, 20, false⟩ st0 artW).db.articles,
         r.status = "ready")) :=
  ⟨by decide,
   c9_no_threshold_validation hashId scoreW genW 3 5 20 false (by decide) st0 artW⟩

/-! ### Scorer and generator parse-failure claims (C7, C8) -/

/-- Claim C7: for every provider response whose text is not a parseable
structured (JSON) payload — `json.loads` fails on the stripped,
fence-stripped text — `score_article` does not raise: it returns the
sentinel score 1, the fixed "Failed to parse" rationale and
`is_bitcoin_relevant = false`; since it returns normally rather than
raising, the pipeline loop continues with the next article. -/
theorem c7_score_parse_failure (loads : String → Option PyJson) (raw : String)
    (hfail : loads (preprocessResponse raw) = none) :
    score_article_result loads raw =
      .ok { score := 1, reason := "Failed to parse", is_bitcoin_relevant := false } := by
  unfold score_article_result
  dsimp only
  rw [hfail]

/-- A `json.loads` stand-in that fails on every input. -/
def loadsNone : String → Option PyJson := fun _ => none

/-- Witness for C7 on a concrete malformed response. -/
theorem c7_score_parse_failure_witness :
    loadsNone (preprocessResponse "this is not JSON") = none ∧
    score_article_result loadsNone "this is not JSON" =
      .ok { score := 1, reason := "Failed to parse", is_bitcoin_relevant := false } :=
  ⟨rfl, c7_score_parse_failure loadsNone "this is not JSON" rfl⟩

/-- Claim C8: for every provider response whose text is not a parseable
structured (JSON) payload, `generate_content` does not raise past its
boundary: it returns a `GeneratedContent` with all three variants equal
to the empty string. -/
theorem c8_generate_parse_failure (loads : String → Option PyJson) (raw : String)
    (hfail : loads (preprocessResponse raw) = none) :
    generate_content_result loads raw =
      .ok { tweet := "", thread := "", linkedin := "" } := by
  unfold generate_content_result
  dsimp only
  rw [hfail]

/-- Witness for C8 on a concrete malformed response. -/
theorem c8_generate_parse_failure_witness :
    loadsNone (preprocessResponse "```\nbroken\n```") = none ∧
    generate_content_result loadsNone "```\nbroken\n```" =
      .ok { tweet := "", thread := "", linkedin := "" } :=
  ⟨rfl, c8_generate_parse_failure loadsNone "```\nbroken\n```" rfl⟩

/-! ### Output log writer claims (C6, C10) -/

/-- Claim C6: the first append to a non-existent category file creates
exactly one header block, terminated by its `---` delimiter line,
followed by the new entry; an append to any file of header-then-body
shape (which every append produces — the second conjunct exhibits the
fresh file in that shape) creates no second header and splices the new
entry immediately after the header's terminating delimiter and before
all previously written entries, so the most recent entry is always the
first body entry. -/
theorem c6_header_splice (category : String) (e : EntryArgs) (R : PyStr) :
    appendContentFile category e true [] =
      headerMain category ++ '\n' :: formatEntry e ∧
    appendContentFile category e true [] =
      headerMain category ++ '\n' ::
        ((entryBody e ++ ['\n']) ++ ['-', '-', '-', '\n']) ∧
    appendContentFile category e true
        (headerMain category ++ '\n' :: (R ++ ['-', '-', '-', '\n'])) =
      headerMain category ++ '\n' ::
        (formatEntry e ++ '\n' :: (R ++ ['-', '-', '-', '\n'])) := by
  refine ⟨appendContentFile_fresh category e, ?_,
    appendContentFile_subsequent category e R⟩
  rw [appendContentFile_fresh category e]
  have hfe : formatEntry e = entryBody e ++ ['\n', '-', '-', '-', '\n'] := by
    unfold formatEntry
    rw [(by decide : ("\n---\n" : String).toList = ['\n', '-', '-', '-', '\n'])]
  rw [hfe]
  simp [List.append_assoc]

/-- Claim C10: a category string outside ready/review/archive does not
fail: it falls back to the `Content/Other.md` file (with the fallback
header title `Content`) and receives the same header-creation and
splice behaviour as the three known categories. -/
theorem c10_unknown_category (category : String)
    (hc : category ≠ "ready" ∧ category ≠ "review" ∧ category ≠ "archive")
    (e : EntryArgs) (R : PyStr) :
    filenameFor category = "Content/Other.md" ∧
    categoryTitle category = "Content" ∧
    appendContentFile category e true [] =
      headerMain category ++ '\n' :: formatEntry e ∧
    appendContentFile category e true
        (headerMain category ++ '\n' :: (R ++ ['-', '-', '-', '\n'])) =
      headerMain category ++ '\n' ::
        (formatEntry e ++ '\n' :: (R ++ ['-', '-', '-', '\n'])) := by
  obtain ⟨h1, h2, h3⟩ := hc
  refine ⟨?_, ?_, appendContentFile_fresh category e,
    appendContentFile_subsequent category e R⟩
  · unfold filenameFor
    rw [if_neg h1, if_neg h2, if_neg h3]
  · unfold categoryTitle
    rw [if_neg h1, if_neg h2, if_neg h3]

/-- A concrete entry used by the C10 witness. -/
def wEntry : EntryArgs := ⟨"T", "u", "S", "8.0", "r", "ts", none, none, none⟩

/-- Witness for C10 at the unknown category `"other"`. -/
theorem c10_unknown_category_witness :
    ("other" ≠ "ready" ∧ "other" ≠ "review" ∧ "other" ≠ "archive") ∧
    (filenameFor "other" = "Content/Other.md" ∧
     categoryTitle "other" = "Content" ∧
     appendContentFile "other" wEntry true [] =
       headerMain "other" ++ '\n' :: formatEntry wEntry ∧
     appendContentFile "other" wEntry true
         (headerMain "other" ++ '\n' :: (['x'] ++ ['-', '-', '-', '\n'])) =
       headerMain "other" ++ '\n' ::
         (formatEntry wEntry ++ '\n' :: (['x'] ++ ['-', '-', '-', '\n']))) :=
  ⟨by decide, c10_unknown_category "other" (by decide) wEntry ['x']⟩

end Curator
